import Mathlib

/-!
# Verification of the document-store / pipeline backend

A shallow embedding, in Lean 4, of the state-bearing parts of the
scanned-document pipeline backend:

* `src/backend/src/infra/storage/local_storage.py` — the JSON document store
  (path safety, atomic writes, optimistic locking, per-key serialization);
* `src/backend/src/api/v1/endpoints/files.py` — stage-content resolution;
* `src/backend/src/api/v1/endpoints/pipeline_callback.py` and
  `src/backend/src/api/v1/endpoints/groups.py` — the upload/callback state
  machine;
* `src/backend/src/tasks/ml_tasks.py` — the retrying dispatch worker;
* `src/backend/src/utils/common.py` — filename normalization and
  filename→file-id resolution.

Each Lean definition is a direct translation of the named Python function;
comments cite the file and behaviour they translate.  Machine reals
(`st_mtime`, backoff seconds) are modelled as rationals.
-/

namespace PyStr

/-- Index (into the character list) of the last `.` of a string, if any.
Used to reproduce `pathlib.PurePath.suffix` / `.stem` / `.with_suffix`. -/
def lastDotIdx (l : List Char) : Option Nat :=
  ((l.enum.filter (fun p => p.2 = '.')).map (fun p => p.1)).getLast?

/-- `pathlib.PurePath(name).suffix` for a bare file name: the part of the
name from its last dot on, but only when that dot is neither the first
character nor the last (`0 < i < len(name) - 1` in CPython). -/
def pySuffix (name : String) : String :=
  let l := name.toList
  match lastDotIdx l with
  | some i => if 0 < i ∧ i + 1 < l.length then String.mk (l.drop i) else ""
  | none => ""

/-- `pathlib.PurePath(name).stem`: the name with `pySuffix` removed. -/
def pyStem (name : String) : String :=
  name.dropRight (pySuffix name).length

/-- `pathlib.PurePath(name).with_suffix(suf)`: replace the suffix if there
is one, else append `suf`. -/
def pyWithSuffix (name suf : String) : String :=
  pyStem name ++ suf

/-- A `pathlib.Path.glob` pattern matcher for the patterns built by the
backend, which contain only literal characters and `*` (no `?`, no
character classes); `*` matches any run of characters of a file name.
The `fuel` argument only bounds the recursion depth structurally: every
step shortens `pattern + input` by at least one character, so
`globMatch` below always supplies enough fuel for the match to finish. -/
def globMatchAux : Nat → List Char → List Char → Bool
  | 0, _, _ => false
  | _ + 1, [], [] => true
  | f + 1, '*' :: ps, [] => globMatchAux f ps []
  | f + 1, '*' :: ps, c :: cs =>
      globMatchAux f ps (c :: cs) || globMatchAux f ('*' :: ps) cs
  | _ + 1, _ :: _, [] => false
  | _ + 1, [], _ :: _ => false
  | f + 1, p :: ps, c :: cs => p = c && globMatchAux f ps cs

/-- `globMatchAux` with adequate fuel. -/
def globMatch (ps cs : List Char) : Bool :=
  globMatchAux (ps.length + cs.length + 1) ps cs

/-- String-level wrapper for `globMatch`. -/
def globMatchS (pattern s : String) : Bool :=
  globMatch pattern.toList s.toList

end PyStr

namespace StageResolve

open PyStr

/-- `list({str(p): p for p in candidates}.values())` in
`_resolve_content_path`: deduplicate, keeping the first occurrence of each
name in order (a CPython dict preserves first-insertion order of keys). -/
def dedupFirst (l : List String) : List String :=
  l.foldl (fun acc x => if x ∈ acc then acc else acc ++ [x]) []

inductive ResolveErr where
  /-- `404 file not found` — no store record for the file id. -/
  | fileMissing : ResolveErr
  /-- `404 content (file) not found` — no candidate payload on disk. -/
  | contentMissing : ResolveErr
  deriving DecidableEq, Repr

/-- `_resolve_content_path` (src/backend/src/api/v1/endpoints/files.py,
lines 36–98), with the filesystem abstracted as `listing`, the ordered
list of (plain-file) names in the stage directory for the File's group.

* `metaExists` — whether `store.exists(f"files/{file_uuid}")`;
* `originalName` — `meta.get("original_name", "")`;
* explicit `filename` is coerced to a `.json` suffix and used as-is;
* otherwise `"{file_uuid}.json"` is used when present;
* otherwise candidates are collected by the glob patterns
  `{stem}*_result.json`, `{stem}*.json` (when the stem is nonempty) and
  `*{file_uuid}*.json`, deduplicated keeping first occurrences;
* exactly one candidate is returned; zero candidates give 404 (or the
  default path when `mustExist = false`); more than one candidate makes
  the code log a line and return the **last** candidate (`uniq[-1]`). -/
def resolveContentPath (metaExists : Bool) (originalName : String)
    (fileUuid : String) (listing : List String) (filename : Option String)
    (mustExist : Bool) : Except ResolveErr String :=
  if metaExists = false then .error .fileMissing
  else
    match filename with
    | some fn =>
        let p := if pySuffix fn = ".json" then fn else pyWithSuffix fn ".json"
        if mustExist ∧ p ∉ listing then .error .contentMissing else .ok p
    | none =>
        let pDefault := fileUuid ++ ".json"
        if pDefault ∈ listing then .ok pDefault
        else
          let stem := pyStem originalName
          let patterns :=
            (if stem ≠ "" then [stem ++ "*_result.json", stem ++ "*.json"] else [])
              ++ ["*" ++ fileUuid ++ "*.json"]
          let candidates :=
            patterns.foldl
              (fun acc patt => acc ++ listing.filter (fun f => globMatchS patt f)) []
          let uniq := dedupFirst candidates
          if uniq.length = 1 then .ok (uniq.headD "")
          else if uniq.length = 0 then
            if mustExist then .error .contentMissing else .ok pDefault
          else
            -- `logger.info(...)` then `return uniq[-1]`: silently the last match
            .ok (uniq.getLastD "")

end StageResolve

/-- C9 sanity: the stem of `scan01.jpg` is `scan01`. -/
example : PyStr.pyStem "scan01.jpg" = "scan01" := by decide

/-- C9 — given stage directory contents `{"scan01_003_result.json"}` and a
File whose `original_name` is `scan01.jpg`, resolving the File's stage
content with no explicit filename (its `{file_uuid}.json` being absent
from the directory) returns `scan01_003_result.json`, found by the
stem-based pattern search of `_resolve_content_path`. -/
theorem c9_stage_resolution_determinism :
    StageResolve.resolveContentPath true "scan01.jpg" "2b9f4a" ["scan01_003_result.json"]
      none true = .ok "scan01_003_result.json" := by rfl

/-- C3 — `_resolve_content_path`'s own docstring promises `409` when more
than one candidate is found, but the code logs a line and returns the last
candidate: with two candidate files `scan01_000_result.json` and
`scan01_001_result.json` for `original_name = scan01.jpg`, resolution
succeeds with the last candidate instead of surfacing the ambiguity. -/
theorem c3_ambiguous_content_silently_picked :
    StageResolve.resolveContentPath true "scan01.jpg" "2b9f4a"
      ["scan01_000_result.json", "scan01_001_result.json"] none true
      = .ok "scan01_001_result.json" := by rfl

namespace Store

open PyStr

/-- A filesystem path as its list of components below the root (`/a/b` is
`["a", "b"]`).  Path components never contain a separator, so string
operations such as `str(p).startswith(str(base) + os.sep)` correspond to
component-list prefix tests. -/
abbrev PathC := List String

/-- Split a character list on a separator character. -/
def splitSep (sep : Char) : List Char → List (List Char)
  | [] => [[]]
  | c :: cs =>
      let r := splitSep sep cs
      if c = sep then [] :: r
      else match r with
        | [] => [[c]]
        | h :: t => (c :: h) :: t

/-- Splitting a key string into path components, as `base_dir / key` does:
`pathlib` drops empty components and bare `.` components when parsing. -/
def splitKey (key : String) : PathC :=
  ((splitSep '/' key.toList).map String.mk).filter (fun c => c ≠ "" ∧ c ≠ ".")

/-- Apply `f` to the last component of a path (the path's `name`). -/
def mapLast (f : String → String) : PathC → PathC
  | [] => []
  | [x] => [f x]
  | x :: xs => x :: mapLast f xs

/-- Lexical `Path.resolve()` on an absolute component list (the store never
uses symlinks): `..` removes the previous component and is a no-op at the
root, other components are appended. -/
def resolveDots (l : PathC) : PathC :=
  l.foldl (fun acc c => if c = ".." then acc.dropLast else acc ++ [c]) []

/-- The resolved path `(base_dir / key).with_suffix(".json").resolve()`
from `_key_to_path`, before the containment check.  `with_suffix` acts on
the joined path's last component and is applied before resolution, exactly
as in the source. -/
def rawKeyPath (base : PathC) (key : String) : PathC :=
  resolveDots (mapLast (fun n => pyWithSuffix n ".json") (base ++ splitKey key))

/-- `_ensure_within_base` (local_storage.py lines 122–125): the resolved
path must satisfy `str(p).startswith(str(base) + os.sep)` or equal the
base; on component lists this is exactly "`base` is a prefix of `p`". -/
def ensureWithinBase (base p : PathC) : Bool :=
  base.isPrefixOf p

/-- Errors of the document store, named as in the spec's taxonomy. -/
inductive StoreErr where
  /-- `ValueError("Path escapes base_dir")` from `_ensure_within_base`. -/
  | invalidKey : StoreErr
  /-- `FileExistsError("Key already exists")` from `create`. -/
  | alreadyExists : StoreErr
  /-- `FileNotFoundError` from `read`/`update`/`delete`. -/
  | notFound : StoreErr
  deriving DecidableEq, Repr

/-- `_key_to_path` (local_storage.py lines 116–120): append the key to the
base directory, force the `.json` suffix, resolve, then check containment;
an escaping resolution raises before any filesystem access. -/
def keyToPath (base : PathC) (key : String) : Except StoreErr PathC :=
  let p := rawKeyPath base key
  if ensureWithinBase base p then .ok p else .error .invalidKey

/-- The store's documents, keyed by resolved path.  Only the shape matters
for the path-safety claim, so documents are just strings. -/
abbrev StoreState := PathC → Option String

/-- Point update of a `StoreState`. -/
def setDoc (st : StoreState) (p : PathC) (d : Option String) : StoreState :=
  fun q => if q = p then d else st q

/-- `create` (local_storage.py lines 47–51): key resolution, existence
check against `overwrite`, then an atomic write. -/
def createOp (base : PathC) (st : StoreState) (key : String) (doc : String)
    (overwrite : Bool) : Except StoreErr Unit × StoreState :=
  match keyToPath base key with
  | .error e => (.error e, st)
  | .ok p =>
      if overwrite = false ∧ (st p).isSome then (.error .alreadyExists, st)
      else (.ok (), setDoc st p (some doc))

/-- `read` (lines 53–58): key resolution then opening the file; a missing
file raises `FileNotFoundError`.  (JSON corruption is out of scope here.) -/
def readOp (base : PathC) (st : StoreState) (key : String) :
    Except StoreErr String × StoreState :=
  match keyToPath base key with
  | .error e => (.error e, st)
  | .ok p =>
      match st p with
      | none => (.error .notFound, st)
      | some d => (.ok d, st)

/-- `replace` without an `if_match_mtime` argument (lines 60–71): key
resolution then an atomic overwrite under the per-key lock.  The
optimistic-lock branch is modelled separately (`Mtime.replaceM`). -/
def replaceOp (base : PathC) (st : StoreState) (key : String) (doc : String) :
    Except StoreErr Unit × StoreState :=
  match keyToPath base key with
  | .error e => (.error e, st)
  | .ok p => (.ok (), setDoc st p (some doc))

/-- `update` (lines 73–89): key resolution, then read-modify-write under
the per-key lock; reading a missing document raises `FileNotFoundError`. -/
def updateOp (base : PathC) (st : StoreState) (key : String)
    (patch : String → String) : Except StoreErr Unit × StoreState :=
  match keyToPath base key with
  | .error e => (.error e, st)
  | .ok p =>
      match st p with
      | none => (.error .notFound, st)
      | some d => (.ok (), setDoc st p (some (patch d)))

/-- `delete` (lines 91–98): key resolution then `unlink`; a missing file
raises unless `missing_ok`. -/
def deleteOp (base : PathC) (st : StoreState) (key : String)
    (missingOk : Bool) : Except StoreErr Unit × StoreState :=
  match keyToPath base key with
  | .error e => (.error e, st)
  | .ok p =>
      match st p with
      | none => if missingOk then (.ok (), st) else (.error .notFound, st)
      | some _ => (.ok (), setDoc st p none)

/-- `exists` (lines 100–101): key resolution then a stat. -/
def existsOp (base : PathC) (st : StoreState) (key : String) :
    Except StoreErr Bool × StoreState :=
  match keyToPath base key with
  | .error e => (.error e, st)
  | .ok p => (.ok (st p).isSome, st)

end Store

/-- C8 — every store operation resolves its key with `_key_to_path` first:
when the resolved path escapes the base directory, `create`, `read`,
`replace`, `update`, `delete` and `exists` all fail with `InvalidKey` and
leave the store untouched (no filesystem I/O happens at all, in particular
none outside the base directory); and a key whose resolution stays within
the base directory is never rejected by this check. -/
theorem c8_path_safety (base : Store.PathC) (st : Store.StoreState) (key : String)
    (doc : String) (patch : String → String) (overwrite missingOk : Bool) :
    (Store.ensureWithinBase base (Store.rawKeyPath base key) = false →
      Store.createOp base st key doc overwrite = (.error .invalidKey, st) ∧
      Store.readOp base st key = (.error .invalidKey, st) ∧
      Store.replaceOp base st key doc = (.error .invalidKey, st) ∧
      Store.updateOp base st key patch = (.error .invalidKey, st) ∧
      Store.deleteOp base st key missingOk = (.error .invalidKey, st) ∧
      Store.existsOp base st key = (.error .invalidKey, st)) ∧
    (Store.ensureWithinBase base (Store.rawKeyPath base key) = true →
      Store.keyToPath base key = .ok (Store.rawKeyPath base key)) := by
  constructor
  · intro h
    simp [Store.createOp, Store.readOp, Store.replaceOp, Store.updateOp,
      Store.deleteOp, Store.existsOp, Store.keyToPath, h]
  · intro h
    simp [Store.keyToPath, h]

/-- C8 witness: with base directory `/var/store`, the key `../escape`
resolves to `/var/escape.json`, outside the base, and every operation
fails with `InvalidKey` leaving the store unchanged; the ordinary key
`files/abc` resolves within the base and is accepted. -/
theorem c8_path_safety_witness :
    (Store.createOp ["var", "store"] (fun _ => none) "../escape" "d" false
        = (.error .invalidKey, fun _ => none) ∧
      Store.readOp ["var", "store"] (fun _ => none) "../escape"
        = (.error .invalidKey, fun _ => none)) ∧
    Store.keyToPath ["var", "store"] "files/abc"
      = .ok ["var", "store", "files", "abc.json"] := by
  constructor
  · exact ⟨((c8_path_safety ["var", "store"] (fun _ => none) "../escape" "d" id
        false false).1 (by rfl)).1,
      (((c8_path_safety ["var", "store"] (fun _ => none) "../escape" "d" id
        false false).1 (by rfl)).2).1⟩
  · exact (c8_path_safety ["var", "store"] (fun _ => none) "files/abc" "d" id
      false false).2 (by rfl)

namespace AtomicWrite

/-- The fragment of the filesystem `_atomic_write` touches: the target
path's current document (as serialized text, `none` = absent) and the
dot-prefixed temporary file it creates next to the target. -/
structure FsState where
  target : Option String
  tmp : Option String
  deriving DecidableEq, Repr

/-- The point in `_atomic_write` (local_storage.py lines 152–188) at which
an injected fault raises, covering every fallible step of the sequence:
`tempfile.mkstemp`, `json.dumps`, the `aiofiles` write/flush, `os.fsync`,
and `os.replace`. -/
inductive FailPoint where
  | noFail | atMkstemp | atSerialize | atWrite | atFsync | atRename
  deriving DecidableEq, Repr

/-- The `except` handler of `_atomic_write`: `os.remove(tmp_name)` with any
`OSError` swallowed (`except OSError: pass`), so when the removal itself
fails the temporary file stays behind. -/
def tryRemoveTmp (s : FsState) (removeFails : Bool) : FsState :=
  if removeFails then s else { s with tmp := none }

/-- `_atomic_write` step by step under fault injection.

* `mkstemp` creates an empty temporary file in the target's directory; a
  failure there happens before the `try` block, so nothing is cleaned up
  (and nothing was created);
* a failure of serialization, write/flush or fsync runs the handler
  (`tryRemoveTmp`) and re-raises;
* `os.replace` atomically moves the temporary file over the target — it is
  the only step that changes the target; a failure there also runs the
  handler and re-raises.

Returns the operation's outcome and the final filesystem fragment. -/
def atomicWrite (s0 : FsState) (text : String) (fp : FailPoint)
    (removeFails : Bool) : Except Unit Unit × FsState :=
  if fp = .atMkstemp then (.error (), s0)
  else
    let s1 : FsState := { s0 with tmp := some "" }
    if fp = .atSerialize then (.error (), tryRemoveTmp s1 removeFails)
    else if fp = .atWrite then (.error (), tryRemoveTmp s1 removeFails)
    else
      let s2 : FsState := { s1 with tmp := some text }
      if fp = .atFsync then (.error (), tryRemoveTmp s2 removeFails)
      else if fp = .atRename then (.error (), tryRemoveTmp s2 removeFails)
      else (.ok (), { target := some text, tmp := none })

end AtomicWrite

/-- C2 counterexample — the claim says a failing atomic write always
removes the temporary file, but the cleanup handler swallows `OSError`
from `os.remove`: when the rename fails and the removal also fails, the
operation raises with the temporary file still present (the target is
nevertheless untouched). -/
theorem c2_counterexample_tmp_left_behind :
    AtomicWrite.atomicWrite ⟨some "old", none⟩ "new" .atRename true
      = (.error (), ⟨some "old", some "new"⟩) := by rfl

/-- C2 (amended) — `_atomic_write` is all-or-nothing for the target: if any
step (mkstemp, serialize, write, fsync, rename) fails, the operation
raises and the previously stored document is unchanged, and the temporary
file is removed provided the removal call itself does not fail (an
`OSError` from the removal is swallowed, leaving the temporary file
behind); on success the target holds exactly the new text with no
temporary file left.  Readers only ever see the target path, which holds
either the old or the complete new document — never a partial write. -/
theorem c2_atomic_write_all_or_nothing (s0 : AtomicWrite.FsState) (text : String)
    (fp : AtomicWrite.FailPoint) (removeFails : Bool) (h0 : s0.tmp = none) :
    (fp ≠ .noFail →
      (AtomicWrite.atomicWrite s0 text fp removeFails).1 = .error () ∧
      (AtomicWrite.atomicWrite s0 text fp removeFails).2.target = s0.target ∧
      (removeFails = false →
        (AtomicWrite.atomicWrite s0 text fp removeFails).2.tmp = none)) ∧
    (fp = .noFail →
      AtomicWrite.atomicWrite s0 text fp removeFails
        = (.ok (), ⟨some text, none⟩)) := by
  cases fp <;> cases removeFails <;>
    simp [AtomicWrite.atomicWrite, AtomicWrite.tryRemoveTmp, h0]

/-- C2 witness: applying the amended theorem at a fsync failure with a
working removal — the write raises, the original document survives and the
temporary file is gone — and at the failure-free run. -/
theorem c2_atomic_write_witness :
    ((AtomicWrite.atomicWrite ⟨some "old", none⟩ "new" .atFsync false).1 = .error () ∧
      (AtomicWrite.atomicWrite ⟨some "old", none⟩ "new" .atFsync false).2.target
        = some "old" ∧
      (AtomicWrite.atomicWrite ⟨some "old", none⟩ "new" .atFsync false).2.tmp = none) ∧
    AtomicWrite.atomicWrite ⟨some "old", none⟩ "new" .noFail false
      = (.ok (), ⟨some "new", none⟩) := by
  refine ⟨?_, ?_⟩
  · have h := (c2_atomic_write_all_or_nothing ⟨some "old", none⟩ "new" .atFsync false
      rfl).1 (by decide)
    exact ⟨h.1, h.2.1, h.2.2 rfl⟩
  · exact (c2_atomic_write_all_or_nothing ⟨some "old", none⟩ "new" .noFail false rfl).2 rfl

namespace Mtime

/-- The comparison tolerance of `replace`/`update`
(`abs(current - if_match_mtime) > 1e-9` in local_storage.py lines 66–69):
stamps within `10⁻⁹` of each other are treated as matching.  Modification
times are modelled as exact rationals. -/
def tol : ℚ := 1 / 1000000000

/-- `replace(key, data, if_match_mtime=...)` (local_storage.py lines
60–71), restricted to one key's cell: `cur` is the stored document and
its `st_mtime` stamp (`none` = missing), `now` is the stamp the atomic
write leaves on the file.  When `if_match_mtime` is supplied and the
document is missing, or its stamp differs from the supplied one by more
than the tolerance, the call raises the concurrent-modification error and
the cell is untouched; otherwise the document is overwritten atomically
and the new stamp returned.  (All of this happens inside the per-key
lock.) -/
def replaceM (cur : Option (String × ℚ)) (data : String) (ifMatch : Option ℚ)
    (now : ℚ) : Except Unit ℚ × Option (String × ℚ) :=
  match ifMatch with
  | some v =>
      match cur with
      | none => (.error (), cur)
      | some (_, m) =>
          if |m - v| > tol then (.error (), cur)
          else (.ok now, some (data, now))
  | none => (.ok now, some (data, now))

end Mtime

/-- C5 counterexample — the claim says `replace` with `if_match_version=v`
fails whenever the stored stamp differs from `v`, but the code compares
with a `1e-9` tolerance: with stored stamp `10⁻¹⁰` and `v = 0` the stamps
differ, yet the replace succeeds and overwrites the document. -/
theorem c5_counterexample_tolerance :
    (1 / 10000000000 : ℚ) ≠ 0 ∧
    Mtime.replaceM (some ("old", 1 / 10000000000)) "new" (some 0) 7
      = (.ok 7, some ("new", 7)) := by
  constructor
  · norm_num
  · have h : ¬ (|(1 / 10000000000 : ℚ) - 0| > Mtime.tol) := by
      rw [Mtime.tol, abs_of_pos (by norm_num : (0:ℚ) < 1 / 10000000000 - 0)]
      norm_num
    simp only [Mtime.replaceM, if_neg h]

/-- C5 (amended) — `replace(key, doc, if_match_version=v)` with `v`
supplied fails with `ConcurrentModification` and leaves the stored
document unchanged when the document is missing or its stamp differs from
`v` by more than the code's `1e-9` tolerance (in particular after another
`replace` moved the stamp by more than the tolerance); when the stored
stamp is within the tolerance of `v` it atomically writes `doc` and
returns the new stamp. -/
theorem c5_replace_optimistic_lock (cur : Option (String × ℚ)) (data : String)
    (v now : ℚ) :
    ((cur = none ∨ ∃ d m, cur = some (d, m) ∧ |m - v| > Mtime.tol) →
      Mtime.replaceM cur data (some v) now = (.error (), cur)) ∧
    (∀ d m, cur = some (d, m) → |m - v| ≤ Mtime.tol →
      Mtime.replaceM cur data (some v) now = (.ok now, some (data, now))) := by
  constructor
  · rintro (rfl | ⟨d, m, rfl, hm⟩)
    · rfl
    · simp [Mtime.replaceM, hm]
  · rintro d m rfl hm
    simp [Mtime.replaceM, not_lt.mpr hm]

/-- C5 witness: with a stored stamp `5` and `v = 0` (mismatch beyond the
tolerance) the replace fails leaving the document in place; with matching
stamps (`3` against `3`) it overwrites and returns the write's stamp. -/
theorem c5_replace_optimistic_lock_witness :
    Mtime.replaceM (some ("old", 5)) "new" (some 0) 7
      = (.error (), some ("old", 5)) ∧
    Mtime.replaceM (some ("old", 3)) "new" (some 3) 7
      = (.ok 7, some ("new", 7)) := by
  constructor
  · exact (c5_replace_optimistic_lock (some ("old", 5)) "new" 0 7).1
      (Or.inr ⟨"old", 5, rfl, by rw [Mtime.tol]; norm_num⟩)
  · exact (c5_replace_optimistic_lock (some ("old", 3)) "new" 3 7).2 "old" 3 rfl
      (by rw [Mtime.tol]; norm_num)

namespace Dispatch

/-- The observable behaviour of one outbound-dispatch execution: how many
HTTP attempts were made, whether the failure was re-raised to the invoking
context once attempts were exhausted, the `time.sleep` durations (seconds,
in order) between attempts, and whether a failure was merely logged. -/
structure DispatchRun where
  attempts : Nat
  raised : Bool
  sleeps : List ℚ
  loggedOnly : Bool
  deriving DecidableEq, Repr

/-- The retry loop of `start_ml_pipeline` (src/backend/src/tasks/
ml_tasks.py lines 16–27): `for attempt in range(6)`, an HTTP GET per
iteration, `raise` on the 6th failure (`attempt == 5`), otherwise
`time.sleep(backoff)` with `backoff = min(backoff * 2, 8)` afterwards.
`ok i` tells whether the `i`-th attempt's GET succeeds; `remaining` counts
the loop iterations still to come after the current one, so the loop is
entered with `remaining = 5`. -/
def mlLoop (ok : Nat → Bool) : Nat → Nat → ℚ → DispatchRun
  | attempt, 0, _ =>
      if ok attempt then ⟨attempt + 1, false, [], false⟩
      else ⟨attempt + 1, true, [], false⟩
  | attempt, remaining + 1, backoff =>
      if ok attempt then ⟨attempt + 1, false, [], false⟩
      else
        let rest := mlLoop ok (attempt + 1) remaining (min (backoff * 2) 8)
        ⟨rest.attempts, rest.raised, backoff :: rest.sleeps, rest.loggedOnly⟩

/-- `start_ml_pipeline`'s dispatch: the loop starting at attempt 0 with
backoff `0.5` seconds. -/
def startMlPipelineRun (ok : Nat → Bool) : DispatchRun :=
  mlLoop ok 0 5 (1 / 2)

/-- `trigger_postprocessing` (src/backend/src/api/v1/endpoints/
pipeline_callback.py lines 15–28): one HTTP GET inside `try`, and a bare
`except Exception` that prints and returns — a single attempt, never
re-raised, no sleeps, failure only logged. -/
def triggerPostprocessingRun (ok : Bool) : DispatchRun :=
  if ok then ⟨1, false, [], false⟩ else ⟨1, false, [], true⟩

end Dispatch

/-- C4 counterexample — the claim says the postprocessing dispatch makes up
to 6 attempts with backoff and surfaces the failure like the upload-time
dispatch; in fact, with the external service down, `start_ml_pipeline`
makes 6 attempts and re-raises while `trigger_postprocessing` makes a
single attempt and swallows the failure, so the two call sites do not obey
the identical retry/backoff contract. -/
theorem c4_counterexample_postprocessing_no_retry :
    ¬ ((Dispatch.triggerPostprocessingRun false).attempts
          = (Dispatch.startMlPipelineRun (fun _ => false)).attempts ∧
        (Dispatch.triggerPostprocessingRun false).raised = true) := by
  decide

/-- C4 (amended) — the upload-time dispatch `start_ml_pipeline` performs at
most 6 HTTP attempts with exponential backoff between attempts starting at
0.5 s, doubling and capped at 8 s, and re-raises the failure once the
attempts are exhausted (when the service never answers the sleeps are
exactly 0.5, 1, 2, 4, 8 s); the postprocessing dispatch
`trigger_postprocessing`, by contrast, performs exactly one attempt and
never surfaces the failure (it only logs it). -/
theorem c4_dispatch_retry_contract (ok : Nat → Bool) (b : Bool) :
    (Dispatch.startMlPipelineRun ok).attempts ≤ 6 ∧
    Dispatch.startMlPipelineRun (fun _ => false)
      = ⟨6, true, [1/2, 1, 2, 4, 8], false⟩ ∧
    (Dispatch.triggerPostprocessingRun b).attempts = 1 ∧
    (Dispatch.triggerPostprocessingRun b).raised = false := by
  refine ⟨?_, ?_, ?_, ?_⟩
  · have h : ∀ remaining attempt backoff,
        (Dispatch.mlLoop ok attempt remaining backoff).attempts
          ≤ attempt + remaining + 1 := by
      intro remaining
      induction remaining with
      | zero =>
          intro attempt backoff
          by_cases hok : ok attempt <;> simp [Dispatch.mlLoop, hok]
      | succ r ih =>
          intro attempt backoff
          by_cases hok : ok attempt
          · simp [Dispatch.mlLoop, hok]
          · have := ih (attempt + 1) (min (backoff * 2) 8)
            simp [Dispatch.mlLoop, hok]
            omega
    exact h 5 0 (1 / 2)
  · show Dispatch.mlLoop (fun _ => false) 0 5 (1/2) = _
    norm_num [Dispatch.mlLoop]
  · cases b <;> rfl
  · cases b <;> rfl

namespace PyStr

/-- `str.lower()` / `str.casefold()` (they agree on the ASCII file names
handled here). -/
def toLowerS (s : String) : String :=
  String.mk (s.toList.map Char.toLower)

/-- `str.strip()`: drop whitespace from both ends. -/
def pyStrip (s : String) : String :=
  String.mk (((s.toList.dropWhile Char.isWhitespace).reverse.dropWhile
    Char.isWhitespace).reverse)

/-- `a.startswith(b)` on strings. -/
def startsWithS (s pre : String) : Bool :=
  pre.toList.isPrefixOf s.toList

/-- `a.endswith(b)` on strings. -/
def endsWithS (s suf : String) : Bool :=
  suf.toList.isSuffixOf s.toList

/-- `_normalize_to_stem` (src/backend/src/utils/common.py lines 147–157):
take the `pathlib` stem, strip one trailing `_result` (the regex
`(?:_result)?$` with `re.IGNORECASE`), strip one trailing `_` plus at
least three digits (the regex `_(\d{3,})$`), then casefold. -/
def normalizeToStem (name : String) : String :=
  let stem := pyStem name
  let stem := if endsWithS (toLowerS stem) "_result" then stem.dropRight 7 else stem
  let l := stem.toList
  let ds := (l.reverse.takeWhile Char.isDigit).length
  let stem :=
    if 3 ≤ ds ∧ (l.reverse.drop ds).head? = some '_'
    then String.mk (l.take (l.length - ds - 1))
    else stem
  toLowerS stem

end PyStr

namespace Callback

open PyStr

/-- The File record stored at `files/{file_uuid}` and mirrored into
`statuses/{file_uuid}.json` — the dictionary built by `upload_zip`
(groups.py lines 78–85), whose `status` field the callback handlers
overwrite.  `filename` is an extra key some records carry; `upload_zip`
itself only sets `original_name`. -/
structure FileMeta where
  fileUuid : String
  groupUuid : String
  originalName : Option String
  filename : Option String
  status : Option String
  rawPath : String
  createdAt : String
  deriving DecidableEq, Repr

/-- A callback request body, read with `payload.get(...)` — every field may
be absent. -/
structure Payload where
  groupUuid : Option String
  filename : Option String
  fileUuid : Option String
  status : Option String
  deriving DecidableEq, Repr

/-- The `FileOut` record the handlers build as the HTTP response, before
pydantic validation (the response is assembled only after the store and
mirror writes have completed). -/
structure FileOutR where
  fileUuid : String
  groupUuid : String
  filename : String
  status : Option String
  deriving DecidableEq, Repr

/-- Python truthiness of an optional string field: `None` and `""` are
falsy, as in `if not gid or not filename` and `if not fid`. -/
def truthy : Option String → Bool
  | none => false
  | some s => !(s = "")

/-- The state the callback handlers touch: the Document Store records
`files/{fid}` (indexed here by `fid`), the `group_index/{gid}` records
(the `"files"` list), the per-group status mirror directory
`statuses/{fid}.json`, and the log of postprocessing background tasks
queued with `background_tasks.add_task` (group id and callback URL). -/
structure BackendState where
  files : String → Option FileMeta
  groupIndex : String → Option (List String)
  mirror : String → String → Option FileMeta
  dispatches : List (String × String)

/-- `(meta.get("filename") or meta.get("original_name") or "").strip()`
from `_resolve_fid_by_filename`. -/
def metaSrcName (m : FileMeta) : String :=
  pyStrip (if truthy m.filename then m.filename.getD ""
    else if truthy m.originalName then m.originalName.getD "" else "")

/-- The loop of `_resolve_fid_by_filename` (common.py lines 160–180) over
the group-index candidates: skip records with an empty source name, return
the first whose normalized stem equals, is a prefix of, or has as a prefix
the target stem.  Reading a candidate whose `files/{fid}` record is
missing raises (`store.read` propagates `FileNotFoundError`). -/
def resolveFidGo (files : String → Option FileMeta) (targetStem : String) :
    List String → Except Unit (Option String)
  | [] => .ok none
  | fid :: rest =>
      match files fid with
      | none => .error ()
      | some meta =>
          let srcName := metaSrcName meta
          if srcName = "" then resolveFidGo files targetStem rest
          else
            let metaStem := normalizeToStem srcName
            if targetStem = metaStem ∨ startsWithS targetStem metaStem = true
                ∨ startsWithS metaStem targetStem = true
            then .ok (some fid)
            else resolveFidGo files targetStem rest

/-- `_resolve_fid_by_filename(group_uuid, filename)`: normalize the
incoming filename, fetch the group index (missing index gives an empty
candidate list), then scan. -/
def resolveFidByFilename (st : BackendState) (gid filename : String) :
    Except Unit (Option String) :=
  resolveFidGo st.files (normalizeToStem filename) ((st.groupIndex gid).getD [])

inductive CbErr where
  /-- `400 group_uuid and filename are required`. -/
  | badRequest : CbErr
  /-- `404 file not found`. -/
  | notFound : CbErr
  /-- an exception escaping the handler (a candidate meta vanished). -/
  | internal : CbErr
  deriving DecidableEq, Repr

/-- The hard-coded callback URL the OCR handler passes to the
postprocessing dispatch (pipeline_callback.py line 84). -/
def postprocCallbackUrl : String :=
  "http://backend:8000/api/v1/pipeline/callback_postprocessing"

/-- `callback_ocr` (pipeline_callback.py lines 58–87): require truthy
`group_uuid` and `filename`; resolve the file id (the payload's
`file_uuid` if truthy, else by filename); 404 when unresolvable or when
`files/{fid}` is missing; then overwrite the record's `status` with the
payload's status **as-is** (no validation against the allowed state set),
`replace` it in the store, mirror it to `statuses/{fid}.json`, and — only
when the payload status equals `"upgrading"` — queue a postprocessing
dispatch.  The `FileOut` response is built afterwards. -/
def callbackOcr (st : BackendState) (p : Payload) :
    Except CbErr (BackendState × FileOutR) :=
  if truthy p.groupUuid = false ∨ truthy p.filename = false then .error .badRequest
  else
    let gid := p.groupUuid.getD ""
    let fn := p.filename.getD ""
    let fidE : Except CbErr String :=
      if truthy p.fileUuid then .ok (p.fileUuid.getD "")
      else
        match resolveFidByFilename st gid fn with
        | .error _ => .error .internal
        | .ok none => .error .notFound
        | .ok (some fid) => .ok fid
    match fidE with
    | .error e => .error e
    | .ok fid =>
        match st.files fid with
        | none => .error .notFound
        | some meta =>
            let meta2 := { meta with status := p.status }
            let st2 : BackendState :=
              { files := fun k => if k = fid then some meta2 else st.files k,
                groupIndex := st.groupIndex,
                mirror := fun g f =>
                  if g = gid ∧ f = fid then some meta2 else st.mirror g f,
                dispatches :=
                  if p.status = some "upgrading"
                  then st.dispatches ++ [(gid, postprocCallbackUrl)]
                  else st.dispatches }
            .ok (st2,
              { fileUuid := fid, groupUuid := gid,
                filename := meta2.filename.getD "", status := p.status })

/-- `callback_postprocessing` (pipeline_callback.py lines 31–56): the same
handler body as `callback_ocr` except that nothing is dispatched. -/
def callbackPostprocessing (st : BackendState) (p : Payload) :
    Except CbErr (BackendState × FileOutR) :=
  if truthy p.groupUuid = false ∨ truthy p.filename = false then .error .badRequest
  else
    let gid := p.groupUuid.getD ""
    let fn := p.filename.getD ""
    let fidE : Except CbErr String :=
      if truthy p.fileUuid then .ok (p.fileUuid.getD "")
      else
        match resolveFidByFilename st gid fn with
        | .error _ => .error .internal
        | .ok none => .error .notFound
        | .ok (some fid) => .ok fid
    match fidE with
    | .error e => .error e
    | .ok fid =>
        match st.files fid with
        | none => .error .notFound
        | some meta =>
            let meta2 := { meta with status := p.status }
            let st2 : BackendState :=
              { files := fun k => if k = fid then some meta2 else st.files k,
                groupIndex := st.groupIndex,
                mirror := fun g f =>
                  if g = gid ∧ f = fid then some meta2 else st.mirror g f,
                dispatches := st.dispatches }
            .ok (st2,
              { fileUuid := fid, groupUuid := gid,
                filename := meta2.filename.getD "", status := p.status })

end Callback

/-- C10 — for a payload whose group and file resolve (here via the
payload's `file_uuid`), both callback handlers write the payload's
`status` field verbatim into the Document Store record `files/{fid}` and
into the per-group status mirror: the stored record is exactly the old one
with `status` replaced by the payload's status — whatever it is, a string
outside `{progress, upgrading, done}` or `none` when absent — with no
validation before the writes.  (pydantic only validates the `FileOut`
response, which is built after both writes.) -/
theorem c10_callback_status_unvalidated (st : Callback.BackendState)
    (p : Callback.Payload) (fid : String) (meta : Callback.FileMeta)
    (hg : Callback.truthy p.groupUuid = true)
    (hf : Callback.truthy p.filename = true)
    (hfid : p.fileUuid = some fid) (hfidT : fid ≠ "")
    (hm : st.files fid = some meta) :
    Callback.callbackOcr st p = .ok
      ({ files := fun k =>
            if k = fid then some { meta with status := p.status } else st.files k,
         groupIndex := st.groupIndex,
         mirror := fun g f =>
            if g = p.groupUuid.getD "" ∧ f = fid
            then some { meta with status := p.status } else st.mirror g f,
         dispatches :=
            if p.status = some "upgrading"
            then st.dispatches ++ [(p.groupUuid.getD "", Callback.postprocCallbackUrl)]
            else st.dispatches },
       { fileUuid := fid, groupUuid := p.groupUuid.getD "",
         filename := meta.filename.getD "", status := p.status }) ∧
    Callback.callbackPostprocessing st p = .ok
      ({ files := fun k =>
            if k = fid then some { meta with status := p.status } else st.files k,
         groupIndex := st.groupIndex,
         mirror := fun g f =>
            if g = p.groupUuid.getD "" ∧ f = fid
            then some { meta with status := p.status } else st.mirror g f,
         dispatches := st.dispatches },
       { fileUuid := fid, groupUuid := p.groupUuid.getD "",
         filename := meta.filename.getD "", status := p.status }) := by
  have ht : Callback.truthy p.fileUuid = true := by
    rw [hfid]; simp [Callback.truthy, hfidT]
  have hgetD : p.fileUuid.getD "" = fid := by rw [hfid]; rfl
  constructor
  · simp only [Callback.callbackOcr, hg, hf, ht, hgetD, hm, Bool.false_eq_true,
      if_true, if_false, Bool.or_self]
    rfl
  · simp only [Callback.callbackPostprocessing, hg, hf, ht, hgetD, hm,
      Bool.false_eq_true, if_true, if_false, Bool.or_self]
    rfl

namespace Callback

/-- Concrete record for the C10 witness. -/
def c10meta : FileMeta :=
  ⟨"f1", "g1", some "x.jpg", none, some "progress", "raw/x.jpg", "t0"⟩

/-- Concrete state for the C10 witness: one stored file record. -/
def c10state : BackendState :=
  ⟨fun k => if k = "f1" then some c10meta else none, fun _ => none,
    fun _ _ => none, []⟩

/-- Concrete payload for the C10 witness: a status outside the allowed
state set. -/
def c10payload : Payload := ⟨some "g1", some "x.jpg", some "f1", some "bogus"⟩

end Callback

/-- C10 witness: delivering the status string `bogus` through both
handlers stores it verbatim in the record and the mirror. -/
theorem c10_callback_status_unvalidated_witness :
    Callback.callbackOcr Callback.c10state Callback.c10payload = .ok
      ({ files := fun k =>
            if k = "f1" then some { Callback.c10meta with status := some "bogus" }
            else Callback.c10state.files k,
         groupIndex := Callback.c10state.groupIndex,
         mirror := fun g f =>
            if g = "g1" ∧ f = "f1"
            then some { Callback.c10meta with status := some "bogus" }
            else Callback.c10state.mirror g f,
         dispatches := [] },
       { fileUuid := "f1", groupUuid := "g1", filename := "", status := some "bogus" }) ∧
    Callback.callbackPostprocessing Callback.c10state Callback.c10payload = .ok
      ({ files := fun k =>
            if k = "f1" then some { Callback.c10meta with status := some "bogus" }
            else Callback.c10state.files k,
         groupIndex := Callback.c10state.groupIndex,
         mirror := fun g f =>
            if g = "g1" ∧ f = "f1"
            then some { Callback.c10meta with status := some "bogus" }
            else Callback.c10state.mirror g f,
         dispatches := [] },
       { fileUuid := "f1", groupUuid := "g1", filename := "", status := some "bogus" }) := by
  have h := c10_callback_status_unvalidated Callback.c10state Callback.c10payload
    "f1" Callback.c10meta rfl rfl rfl (by decide) rfl
  exact ⟨h.1, h.2⟩

namespace Callback

/-- The fields of a record that `_resolve_fid_by_filename` reads: the
`filename` and `original_name` keys.  Overwriting `status` preserves this
view. -/
def nameView (m : FileMeta) : Option String × Option String :=
  (m.filename, m.originalName)

/-- `resolveFidGo` only reads the name fields of the candidate records, so
two stores agreeing on those resolve identically. -/
theorem resolveFidGo_congr (files files' : String → Option FileMeta)
    (ts : String)
    (h : ∀ f, (files f).map nameView = (files' f).map nameView) :
    ∀ l, resolveFidGo files ts l = resolveFidGo files' ts l := by
  intro l
  induction l with
  | nil => rfl
  | cons fid rest ih =>
      have hf := h fid
      cases hm : files fid with
      | none =>
          cases hm' : files' fid with
          | none => simp [resolveFidGo, hm, hm']
          | some m' => rw [hm, hm'] at hf; simp at hf
      | some m =>
          cases hm' : files' fid with
          | none => rw [hm, hm'] at hf; simp at hf
          | some m' =>
              rw [hm, hm'] at hf
              simp only [Option.map_some', Option.some.injEq] at hf
              have hname : m.filename = m'.filename ∧ m.originalName = m'.originalName := by
                have := hf
                rw [nameView, nameView, Prod.mk.injEq] at this
                exact this
              have hsrc : metaSrcName m = metaSrcName m' := by
                rw [metaSrcName, metaSrcName, hname.1, hname.2]
              simp only [resolveFidGo, hm, hm', hsrc, ih]

end Callback

/-- C7 — delivering the identical `callback_ocr` payload
`{group_uuid, filename, status}` (no `file_uuid`) a second time succeeds
and is idempotent: given that the first delivery resolved the file and
succeeded with state `st1` and response `out1`, the second delivery
returns the same `FileOut` record, leaves the `files/{fid}` record, the
status mirror and the group index exactly as after the first delivery, and
its only repeated side effect is queuing one more postprocessing dispatch
(when the delivered status is `"upgrading"`). -/
theorem c7_callback_ocr_idempotent (st : Callback.BackendState)
    (p : Callback.Payload) (fid : String) (meta : Callback.FileMeta)
    (hg : Callback.truthy p.groupUuid = true)
    (hf : Callback.truthy p.filename = true)
    (hfu : p.fileUuid = none)
    (hres : Callback.resolveFidByFilename st (p.groupUuid.getD "")
      (p.filename.getD "") = .ok (some fid))
    (hm : st.files fid = some meta) :
    ∀ st1 out1, Callback.callbackOcr st p = .ok (st1, out1) →
      Callback.callbackOcr st1 p = .ok
        ({ st1 with dispatches := st1.dispatches
            ++ (if p.status = some "upgrading"
                then [(p.groupUuid.getD "", Callback.postprocCallbackUrl)]
                else []) }, out1) := by
  intro st1 out1 heq
  have htf : Callback.truthy p.fileUuid = false := by rw [hfu]; rfl
  simp only [Callback.callbackOcr, hg, hf, htf, hres, hm, Bool.false_eq_true,
    Bool.true_eq_false, or_self, if_false, Except.ok.injEq, Prod.mk.injEq] at heq
  obtain ⟨hst1, hout1⟩ := heq
  subst hst1
  subst hout1
  -- the second delivery resolves the same file id: only `status` changed
  have hview : ∀ f : String,
      ((fun k => if k = fid then some { meta with status := p.status }
          else st.files k) f).map Callback.nameView
        = (st.files f).map Callback.nameView := by
    intro f
    by_cases hkf : f = fid
    · subst hkf
      rw [hm]
      simp [Callback.nameView]
    · simp [hkf]
  have hres2 : Callback.resolveFidByFilename
      ({ files := fun k => if k = fid then some { meta with status := p.status }
            else st.files k,
         groupIndex := st.groupIndex,
         mirror := fun g f => if g = p.groupUuid.getD "" ∧ f = fid
            then some { meta with status := p.status } else st.mirror g f,
         dispatches := if p.status = some "upgrading"
            then st.dispatches ++ [(p.groupUuid.getD "", Callback.postprocCallbackUrl)]
            else st.dispatches } : Callback.BackendState)
      (p.groupUuid.getD "") (p.filename.getD "") = .ok (some fid) := by
    rw [Callback.resolveFidByFilename] at hres ⊢
    rw [Callback.resolveFidGo_congr _ st.files _ hview]
    exact hres
  simp only [Callback.callbackOcr, hg, hf, htf, hres2, Bool.false_eq_true,
    Bool.true_eq_false, or_self, if_false, if_pos rfl, if_true,
    Except.ok.injEq, Prod.mk.injEq, Callback.BackendState.mk.injEq]
  refine ⟨⟨?_, trivial, ?_, ?_⟩, trivial⟩
  · funext k
    by_cases hk : k = fid <;> simp [hk]
  · funext g f
    by_cases hgf : g = p.groupUuid.getD "" ∧ f = fid <;> simp [hgf]
  · by_cases hP : p.status = some "upgrading" <;> simp [hP]

namespace Callback

/-- Concrete record for the C7 witness: the File as `upload_zip` creates
it. -/
def c7meta : FileMeta :=
  ⟨"f1", "g1", some "a.jpg", none, some "progress", "raw/a.jpg", "t0"⟩

/-- Concrete state for the C7 witness: one group with one file, indexed. -/
def c7state : BackendState :=
  ⟨fun k => if k = "f1" then some c7meta else none,
    fun g => if g = "g1" then some ["f1"] else none,
    fun _ _ => none, []⟩

/-- Concrete payload for the C7 witness: the OCR completion callback,
identified by filename only. -/
def c7payload : Payload := ⟨some "g1", some "a.jpg", none, some "upgrading"⟩

/-- The state after the first C7 delivery. -/
def c7state1 : BackendState :=
  { files := fun k => if k = "f1" then some { c7meta with status := some "upgrading" }
      else c7state.files k,
    groupIndex := c7state.groupIndex,
    mirror := fun g f => if g = "g1" ∧ f = "f1"
      then some { c7meta with status := some "upgrading" } else c7state.mirror g f,
    dispatches := c7state.dispatches ++ [("g1", postprocCallbackUrl)] }

/-- The response of the first C7 delivery. -/
def c7out1 : FileOutR := ⟨"f1", "g1", "", some "upgrading"⟩

end Callback

/-- C7 witness: a second delivery of the `upgrading` callback for
`a.jpg` returns the same response and the same records, appending only one
more postprocessing dispatch. -/
theorem c7_callback_ocr_idempotent_witness :
    Callback.callbackOcr Callback.c7state1 Callback.c7payload = .ok
      ({ Callback.c7state1 with dispatches := Callback.c7state1.dispatches
          ++ [("g1", Callback.postprocCallbackUrl)] }, Callback.c7out1) := by
  have h := c7_callback_ocr_idempotent Callback.c7state Callback.c7payload
    "f1" Callback.c7meta rfl rfl rfl (by rfl) rfl Callback.c7state1 Callback.c7out1
    (by rfl)
  exact h

namespace Callback

/-- The events of the automated pipeline path for one uploaded file:
`upload_zip` creating the File, the OCR service's completion callback, and
the postprocessing service's completion callback. -/
inductive PEvent where
  | upload | ocrCb | postCb
  deriving DecidableEq, Repr

/-- The File record `upload_zip` (groups.py lines 78–85) stores: status
`progress`, `original_name` from the extracted file.  (`raw_path` and
`created_at` take placeholder values — no claim depends on them.) -/
def uploadMeta (gid fn fid : String) : FileMeta :=
  ⟨fid, gid, some fn, none, some "progress", "raw_data/" ++ fn, "t0"⟩

/-- The upload step (groups.py lines 71–91): write the status mirror,
create `files/{fid}`, then create the group index `{"files": [fid]}`.
The `start_ml_pipeline.send` dispatch goes to the OCR service and is not
tracked in the postprocessing dispatch log. -/
def uploadStep (gid fn fid : String) (st : BackendState) : BackendState :=
  let meta := uploadMeta gid fn fid
  { files := fun k => if k = fid then some meta else st.files k,
    groupIndex := fun g => if g = gid then some [fid] else st.groupIndex g,
    mirror := fun g f => if g = gid ∧ f = fid then some meta else st.mirror g f,
    dispatches := st.dispatches }

/-- The payload the OCR service delivers on completing a file
(`status="upgrading"`, identified by filename — see §4.3 of the spec and
the `callback_ocr` handler). -/
def ocrPayload (gid fn : String) : Payload := ⟨some gid, some fn, none, some "upgrading"⟩

/-- The payload the postprocessing service delivers
(postprocessing/main.py line 62: `{"group_uuid", "filename",
"status": "done"}`). -/
def postPayload (gid fn : String) : Payload := ⟨some gid, some fn, none, some "done"⟩

/-- One pipeline event applied to the backend state.  A delivery the
handler rejects leaves the state unchanged (the HTTP error is returned to
the external service). -/
def pstep (gid fn fid : String) (st : BackendState) : PEvent → BackendState
  | .upload => uploadStep gid fn fid st
  | .ocrCb =>
      match callbackOcr st (ocrPayload gid fn) with
      | .ok (st', _) => st'
      | .error _ => st
  | .postCb =>
      match callbackPostprocessing st (postPayload gid fn) with
      | .ok (st', _) => st'
      | .error _ => st

/-- The status stored in the File's Document Store record. -/
def statusAt (fid : String) (st : BackendState) : Option String :=
  (st.files fid).bind (fun m => m.status)

/-- The statuses observed after each event of a run. -/
def observe (gid fn fid : String) (st : BackendState) :
    List PEvent → List (Option String)
  | [] => []
  | e :: rest =>
      let st' := pstep gid fn fid st e
      statusAt fid st' :: observe gid fn fid st' rest

/-- The backend before anything was uploaded. -/
def emptyState : BackendState :=
  ⟨fun _ => none, fun _ => none, fun _ _ => none, []⟩

/-- Validity of the events following the upload: no second upload, and a
postprocessing callback only after some OCR callback (postprocessing is
only ever dispatched from the `upgrading` transition). -/
def validTail : Bool → List PEvent → Bool
  | _, [] => true
  | _, .upload :: _ => false
  | _, .ocrCb :: rest => validTail true rest
  | seenOcr, .postCb :: rest => seenOcr && validTail seenOcr rest

/-- A run of the automated pipeline path: an upload followed by a valid
tail of callbacks. -/
def validRun : List PEvent → Bool
  | .upload :: tail => validTail false tail
  | _ => false

/-- The status each pipeline event writes for the File. -/
def eventStatus : PEvent → Option String
  | .upload => some "progress"
  | .ocrCb => some "upgrading"
  | .postCb => some "done"

/-- Position of a status along `progress → upgrading → done` (other values
do not occur in pipeline runs). -/
def rank (s : Option String) : Nat :=
  if s = some "progress" then 0
  else if s = some "upgrading" then 1
  else if s = some "done" then 2
  else 3

/-- "The sequence of statuses only advances": consecutive observations
never decrease in rank. -/
abbrev advancing (l : List (Option String)) : Prop :=
  l.Chain' (fun a b => rank a ≤ rank b)

end Callback

/-- C6 counterexample — a run of the automated pipeline path in which a
late (duplicate) OCR callback arrives after the postprocessing callback:
the run `[upload, ocrCb, postCb, ocrCb]` is valid (every postprocessing
callback is preceded by an OCR callback, and OCR retries can fire at any
time), yet the observed statuses are
`progress, upgrading, done, upgrading` — the File moves from `done` back
to `upgrading`, so the sequence does not only advance along
`progress → upgrading → done`. -/
theorem c6_counterexample_late_ocr_callback :
    Callback.validRun [.upload, .ocrCb, .postCb, .ocrCb] = true ∧
    Callback.observe "g1" "a.jpg" "f1" Callback.emptyState
      [.upload, .ocrCb, .postCb, .ocrCb]
      = [some "progress", some "upgrading", some "done", some "upgrading"] ∧
    ¬ Callback.advancing (Callback.observe "g1" "a.jpg" "f1"
        Callback.emptyState [.upload, .ocrCb, .postCb, .ocrCb]) := by
  refine ⟨rfl, rfl, ?_⟩
  rw [show Callback.observe "g1" "a.jpg" "f1" Callback.emptyState
      [.upload, .ocrCb, .postCb, .ocrCb]
      = [some "progress", some "upgrading", some "done", some "upgrading"] from rfl]
  intro h
  have h1 := List.chain'_cons.mp h
  have h2 := List.chain'_cons.mp h1.2
  have h3 := List.chain'_cons.mp h2.2
  exact absurd h3.1 (by decide)

namespace Callback

open PyStr

/-- Resolution over a one-file group index succeeds on the uploaded
filename: the record's source name is the File's `original_name` and both
sides normalize to the same stem. -/
theorem resolveFid_single (files : String → Option FileMeta) (fn fid : String)
    (m : FileMeta) (hm : files fid = some m) (hf1 : m.filename = none)
    (hf2 : m.originalName = some fn) (hfn : fn ≠ "")
    (hstrip : pyStrip fn = fn) :
    resolveFidGo files (normalizeToStem fn) [fid] = .ok (some fid) := by
  have hsrc : metaSrcName m = fn := by
    rw [metaSrcName, hf1, hf2]
    simp [truthy, hfn, hstrip]
  simp only [resolveFidGo, hm, hsrc]
  simp [hfn]

/-- The result of a successful `callback_ocr` delivery for the single
uploaded file, for an arbitrary delivered status. -/
theorem callbackOcr_run (st : BackendState) (gid fn fid : String)
    (m : FileMeta) (stat : Option String)
    (hgid : gid ≠ "") (hfn : fn ≠ "") (hstrip : pyStrip fn = fn)
    (hm : st.files fid = some m) (hf1 : m.filename = none)
    (hf2 : m.originalName = some fn) (hidx : st.groupIndex gid = some [fid]) :
    callbackOcr st ⟨some gid, some fn, none, stat⟩ = .ok
      ({ files := fun k => if k = fid then some { m with status := stat }
            else st.files k,
         groupIndex := st.groupIndex,
         mirror := fun g f => if g = gid ∧ f = fid
            then some { m with status := stat } else st.mirror g f,
         dispatches := if stat = some "upgrading"
            then st.dispatches ++ [(gid, postprocCallbackUrl)]
            else st.dispatches },
       ⟨fid, gid, "", stat⟩) := by
  have hres : resolveFidByFilename st gid fn = .ok (some fid) := by
    rw [resolveFidByFilename, hidx]
    exact resolveFid_single st.files fn fid m hm hf1 hf2 hfn hstrip
  have hg : truthy (some gid) = true := by simp [truthy, hgid]
  have hf : truthy (some fn) = true := by simp [truthy, hfn]
  have ht : truthy (none : Option String) = false := rfl
  simp only [callbackOcr, hg, hf, ht, hres, hm, hf1, Bool.false_eq_true,
    Bool.true_eq_false, or_self, if_false, Option.getD_some, Option.getD_none]

/-- The result of a successful `callback_postprocessing` delivery for the
single uploaded file, for an arbitrary delivered status. -/
theorem callbackPostprocessing_run (st : BackendState) (gid fn fid : String)
    (m : FileMeta) (stat : Option String)
    (hgid : gid ≠ "") (hfn : fn ≠ "") (hstrip : pyStrip fn = fn)
    (hm : st.files fid = some m) (hf1 : m.filename = none)
    (hf2 : m.originalName = some fn) (hidx : st.groupIndex gid = some [fid]) :
    callbackPostprocessing st ⟨some gid, some fn, none, stat⟩ = .ok
      ({ files := fun k => if k = fid then some { m with status := stat }
            else st.files k,
         groupIndex := st.groupIndex,
         mirror := fun g f => if g = gid ∧ f = fid
            then some { m with status := stat } else st.mirror g f,
         dispatches := st.dispatches },
       ⟨fid, gid, "", stat⟩) := by
  have hres : resolveFidByFilename st gid fn = .ok (some fid) := by
    rw [resolveFidByFilename, hidx]
    exact resolveFid_single st.files fn fid m hm hf1 hf2 hfn hstrip
  have hg : truthy (some gid) = true := by simp [truthy, hgid]
  have hf : truthy (some fn) = true := by simp [truthy, hfn]
  have ht : truthy (none : Option String) = false := rfl
  simp only [callbackPostprocessing, hg, hf, ht, hres, hm, hf1, Bool.false_eq_true,
    Bool.true_eq_false, or_self, if_false, Option.getD_some, Option.getD_none]

/-- The state invariant along a pipeline run after the upload: the File's
record exists with the uploaded `original_name` (and no `filename` key),
and the group index lists exactly this file. -/
def pipeInv (gid fn fid : String) (st : BackendState) : Prop :=
  ∃ m : FileMeta, st.files fid = some m ∧ m.filename = none ∧
    m.originalName = some fn ∧ st.groupIndex gid = some [fid]

/-- Along any valid post-upload event tail, each callback succeeds and
writes its stage's status: the observed statuses are exactly the statuses
of the delivered events. -/
theorem observe_eq_eventStatus (gid fn fid : String)
    (hgid : gid ≠ "") (hfn : fn ≠ "") (hstrip : pyStrip fn = fn) :
    ∀ (tail : List PEvent) (b : Bool) (st : BackendState),
      validTail b tail = true → pipeInv gid fn fid st →
      observe gid fn fid st tail = tail.map eventStatus := by
  intro tail
  induction tail with
  | nil => intro b st _ _; rfl
  | cons e rest ih =>
      intro b st hv hInv
      obtain ⟨m, hm, hf1, hf2, hidx⟩ := hInv
      cases e with
      | upload => exact absurd hv (by simp [validTail])
      | ocrCb =>
          have hv' : validTail true rest = true := hv
          have hrun := callbackOcr_run st gid fn fid m (some "upgrading")
            hgid hfn hstrip hm hf1 hf2 hidx
          have hstep : pstep gid fn fid st .ocrCb
              = { files := fun k => if k = fid
                    then some { m with status := some "upgrading" }
                    else st.files k,
                  groupIndex := st.groupIndex,
                  mirror := fun g f => if g = gid ∧ f = fid
                    then some { m with status := some "upgrading" }
                    else st.mirror g f,
                  dispatches := st.dispatches ++ [(gid, postprocCallbackUrl)] } := by
            simp only [pstep, ocrPayload, hrun]
            simp
          rw [observe, hstep]
          have hInv' : pipeInv gid fn fid
              { files := fun k => if k = fid
                  then some { m with status := some "upgrading" }
                  else st.files k,
                groupIndex := st.groupIndex,
                mirror := fun g f => if g = gid ∧ f = fid
                  then some { m with status := some "upgrading" }
                  else st.mirror g f,
                dispatches := st.dispatches ++ [(gid, postprocCallbackUrl)] } :=
            ⟨{ m with status := some "upgrading" }, by simp, hf1, hf2, hidx⟩
          rw [ih true _ hv' hInv']
          simp [statusAt, eventStatus]
      | postCb =>
          have hv' : b = true ∧ validTail b rest = true := by
            simpa [validTail, Bool.and_eq_true] using hv
          have hrun := callbackPostprocessing_run st gid fn fid m (some "done")
            hgid hfn hstrip hm hf1 hf2 hidx
          have hstep : pstep gid fn fid st .postCb
              = { files := fun k => if k = fid
                    then some { m with status := some "done" }
                    else st.files k,
                  groupIndex := st.groupIndex,
                  mirror := fun g f => if g = gid ∧ f = fid
                    then some { m with status := some "done" }
                    else st.mirror g f,
                  dispatches := st.dispatches } := by
            simp only [pstep, postPayload, hrun]
          rw [observe, hstep]
          have hInv' : pipeInv gid fn fid
              { files := fun k => if k = fid
                  then some { m with status := some "done" }
                  else st.files k,
                groupIndex := st.groupIndex,
                mirror := fun g f => if g = gid ∧ f = fid
                  then some { m with status := some "done" }
                  else st.mirror g f,
                dispatches := st.dispatches } :=
            ⟨{ m with status := some "done" }, by simp, hf1, hf2, hidx⟩
          rw [ih b _ hv'.2 hInv']
          simp [statusAt, eventStatus]

end Callback

/-- C6 (amended) — along every run of the automated pipeline path (an
upload followed by any valid sequence of OCR/postprocessing callbacks),
the observed status sequence is `progress` followed by the statuses the
callbacks write, and every post-upload status is `upgrading` or `done`:
the pipeline path never transitions a File back to `progress` — in
particular never `done → progress`.  (A late duplicate OCR callback can
still set a `done` File back to `upgrading`, which is what the
counterexample exhibits, so the sequence need not be monotone in full.) -/
theorem c6_pipeline_never_back_to_progress (gid fn fid : String)
    (hgid : gid ≠ "") (hfn : fn ≠ "") (hstrip : PyStr.pyStrip fn = fn) :
    ∀ tail : List Callback.PEvent, Callback.validTail false tail = true →
      Callback.observe gid fn fid Callback.emptyState (.upload :: tail)
        = some "progress" :: tail.map Callback.eventStatus ∧
      ∀ s ∈ tail.map Callback.eventStatus,
        s = some "upgrading" ∨ s = some "done" := by
  intro tail hv
  constructor
  · rw [Callback.observe]
    have hup : Callback.pstep gid fn fid Callback.emptyState .upload
        = Callback.uploadStep gid fn fid Callback.emptyState := rfl
    rw [hup]
    have hInv : Callback.pipeInv gid fn fid
        (Callback.uploadStep gid fn fid Callback.emptyState) :=
      ⟨Callback.uploadMeta gid fn fid, by simp [Callback.uploadStep],
        rfl, rfl, by simp [Callback.uploadStep]⟩
    rw [Callback.observe_eq_eventStatus gid fn fid hgid hfn hstrip tail false _ hv hInv]
    simp [Callback.statusAt, Callback.uploadStep, Callback.uploadMeta]
  · intro s hs
    obtain ⟨e, he, rfl⟩ := List.mem_map.mp hs
    have hNoUp : ∀ (l : List Callback.PEvent) (b : Bool),
        Callback.validTail b l = true → Callback.PEvent.upload ∈ l → False := by
      intro l
      induction l with
      | nil => intro b _ hmem; cases hmem
      | cons e' rest ih =>
          intro b hv' hmem
          cases List.mem_cons.mp hmem with
          | inl h0 =>
              rw [← h0] at hv'
              simp [Callback.validTail] at hv'
          | inr h0 =>
              cases e' with
              | upload => simp [Callback.validTail] at hv'
              | ocrCb => exact ih true hv' h0
              | postCb =>
                  have hsplit := (Bool.and_eq_true _ _).mp hv'
                  exact ih b hsplit.2 h0
    cases e with
    | upload => exact (hNoUp tail false hv he).elim
    | ocrCb => exact Or.inl rfl
    | postCb => exact Or.inr rfl

/-- C6 witness: the canonical run upload → OCR callback → postprocessing
callback observes `progress, upgrading, done`, and its post-upload
statuses avoid `progress`. -/
theorem c6_pipeline_never_back_to_progress_witness :
    Callback.observe "g1" "a.jpg" "f1" Callback.emptyState
      [.upload, .ocrCb, .postCb]
      = [some "progress", some "upgrading", some "done"] ∧
    ∀ s ∈ ([Callback.PEvent.ocrCb, Callback.PEvent.postCb].map Callback.eventStatus),
      s = some "upgrading" ∨ s = some "done" := by
  have h := c6_pipeline_never_back_to_progress "g1" "a.jpg" "f1"
    (by decide) (by decide) (by rfl) [.ocrCb, .postCb] (by rfl)
  exact ⟨h.1, h.2⟩

namespace UpdateLock

/-- The control point of one `update(key, patch)` call (local_storage.py
lines 73–89) with `patch = increment the counter field`, at the
granularity of its suspension points:

* `idle` — before `async with lock` (after `_lock_for` returned the
  per-key lock);
* `acquired` — holding the lock, before `data = await self.read(key)`;
* `readv v` — holding the lock, having read counter value `v`;
* `wrote` — holding the lock, after `await self._atomic_write(path,
  patch(data))` landed the incremented value;
* `donest` — lock released, call returned.

The `if_match_mtime` argument is `None` in this scenario, so the
optimistic-lock branch is skipped. -/
inductive TState where
  | idle | acquired | readv (v : Nat) | wrote | donest
  deriving DecidableEq, Repr

/-- Whether a task currently holds the per-key lock. -/
def holds : TState → Bool
  | .acquired => true
  | .readv _ => true
  | .wrote => true
  | _ => false

/-- Whether a task's increment has already landed in the stored document. -/
def past : TState → Bool
  | .wrote => true
  | .donest => true
  | _ => false

/-- One scheduler step of the concurrent `update` calls on a single key.
A configuration is the list of task states plus the counter value stored
in the document.  `asyncio.Lock` admits any interleaving of the waiting
tasks, so acquisition is enabled for every idle task whenever no task
holds the lock; reading yields the stored value; writing stores the read
value plus one; releasing ends the `async with` block. -/
inductive UStep : List TState × Nat → List TState × Nat → Prop where
  | acquire (ts : List TState) (s : Nat) (i : Nat)
      (h : ts[i]? = some .idle) (hfree : ∀ t ∈ ts, holds t = false) :
      UStep (ts, s) (ts.set i .acquired, s)
  | readStep (ts : List TState) (s : Nat) (i : Nat)
      (h : ts[i]? = some .acquired) :
      UStep (ts, s) (ts.set i (.readv s), s)
  | writeStep (ts : List TState) (s : Nat) (i : Nat) (v : Nat)
      (h : ts[i]? = some (.readv v)) :
      UStep (ts, s) (ts.set i .wrote, v + 1)
  | releaseStep (ts : List TState) (s : Nat) (i : Nat)
      (h : ts[i]? = some .wrote) :
      UStep (ts, s) (ts.set i .donest, s)

/-- At most one task holds the lock (mutual exclusion). -/
def AtMostOneHolder (ts : List TState) : Prop :=
  ∀ (i j : Nat) (a b : TState), i ≠ j → ts[i]? = some a → ts[j]? = some b →
    holds a = true → holds b = true → False

/-- The serialization invariant: `n` tasks, mutual exclusion, the counter
equals the initial value plus the number of landed increments, and a task
that has read value `v` (and still holds the lock) read the current value. -/
def Inv (n c0 : Nat) (cfg : List TState × Nat) : Prop :=
  cfg.1.length = n ∧ AtMostOneHolder cfg.1 ∧
  cfg.2 = c0 + cfg.1.countP past ∧
  ∀ (i v : Nat), cfg.1[i]? = some (.readv v) → v = cfg.2

/-- Setting one element shifts `countP` by the difference of the old and
new elements' predicate values. -/
theorem countP_set_add (p : TState → Bool) :
    ∀ (ts : List TState) (i : Nat) (a b : TState), ts[i]? = some a →
      (ts.set i b).countP p + (if p a then 1 else 0)
        = ts.countP p + (if p b then 1 else 0) := by
  intro ts
  induction ts with
  | nil => intro i a b h; simp at h
  | cons x xs ih =>
      intro i a b h
      cases i with
      | zero =>
          simp only [List.getElem?_cons_zero, Option.some.injEq] at h
          rw [← h]
          simp only [List.set_cons_zero, List.countP_cons]
          by_cases hpx : p x <;> by_cases hpb : p b <;> simp [hpx, hpb]
      | succ m =>
          simp only [List.getElem?_cons_succ] at h
          have := ih m a b h
          simp only [List.set_cons_succ, List.countP_cons]
          omega

end UpdateLock

namespace UpdateLock

/-- The initial configuration satisfies the invariant. -/
theorem inv_init (n c0 : Nat) : Inv n c0 (List.replicate n .idle, c0) := by
  refine ⟨by simp, ?_, ?_, ?_⟩
  · intro i j a b _ hi _ ha _
    have ha' := List.eq_of_mem_replicate (List.getElem?_mem hi)
    rw [ha'] at ha
    simp [holds] at ha
  · have hz : (List.replicate n TState.idle).countP past = 0 := by
      rw [List.countP_eq_zero]
      intro t ht
      rw [List.eq_of_mem_replicate ht]
      simp [past]
    simp [hz]
  · intro i v hi
    have := List.eq_of_mem_replicate (List.getElem?_mem hi)
    cases this

/-- Each scheduler step preserves the invariant. -/
theorem inv_step {n c0 : Nat} {c c' : List TState × Nat}
    (hInv : Inv n c0 c) (hs : UStep c c') : Inv n c0 c' := by
  obtain ⟨hlen, hone, hsum, hread⟩ := hInv
  cases hs with
  | acquire ts s i h hfree =>
      have hbound : i < ts.length := (List.getElem?_eq_some.mp h).1
      refine ⟨by simpa using hlen, ?_, ?_, ?_⟩
      · intro i' j' a b hij hi' hj' ha hb
        by_cases hii : i' = i
        · subst hii
          rw [List.getElem?_set_ne (show i' ≠ j' from hij)] at hj'
          rw [hfree b (List.getElem?_mem hj')] at hb
          cases hb
        · rw [List.getElem?_set_ne (show i ≠ i' from fun hh => hii hh.symm)] at hi'
          rw [hfree a (List.getElem?_mem hi')] at ha
          cases ha
      · have hc := countP_set_add past ts i .idle .acquired h
        simp [past] at hc
        dsimp only at hsum ⊢
        omega
      · intro i' v hi'
        by_cases hii : i' = i
        · subst hii
          rw [List.getElem?_set_eq_of_lt _ hbound] at hi'
          cases hi'
        · rw [List.getElem?_set_ne (show i ≠ i' from fun hh => hii hh.symm)] at hi'
          exact hread i' v hi'
  | readStep ts s i h =>
      have hbound : i < ts.length := (List.getElem?_eq_some.mp h).1
      refine ⟨by simpa using hlen, ?_, ?_, ?_⟩
      · intro i' j' a b hij hi' hj' ha hb
        by_cases hii : i' = i
        · subst hii
          rw [List.getElem?_set_ne (show i' ≠ j' from hij)] at hj'
          exact hone i' j' .acquired b hij h hj' rfl hb
        · rw [List.getElem?_set_ne (show i ≠ i' from fun hh => hii hh.symm)] at hi'
          by_cases hjj : j' = i
          · subst hjj
            exact hone i' j' a .acquired hij hi' h ha rfl
          · rw [List.getElem?_set_ne (show i ≠ j' from fun hh => hjj hh.symm)] at hj'
            exact hone i' j' a b hij hi' hj' ha hb
      · have hc := countP_set_add past ts i .acquired (.readv s) h
        simp [past] at hc
        dsimp only at hsum ⊢
        omega
      · intro i' v hi'
        by_cases hii : i' = i
        · subst hii
          rw [List.getElem?_set_eq_of_lt _ hbound] at hi'
          simp only [Option.some.injEq, TState.readv.injEq] at hi'
          exact hi'.symm
        · rw [List.getElem?_set_ne (show i ≠ i' from fun hh => hii hh.symm)] at hi'
          exact hread i' v hi'
  | writeStep ts s i v h =>
      have hbound : i < ts.length := (List.getElem?_eq_some.mp h).1
      refine ⟨by simpa using hlen, ?_, ?_, ?_⟩
      · intro i' j' a b hij hi' hj' ha hb
        by_cases hii : i' = i
        · subst hii
          rw [List.getElem?_set_ne (show i' ≠ j' from hij)] at hj'
          exact hone i' j' (.readv v) b hij h hj' rfl hb
        · rw [List.getElem?_set_ne (show i ≠ i' from fun hh => hii hh.symm)] at hi'
          by_cases hjj : j' = i
          · subst hjj
            exact hone i' j' a (.readv v) hij hi' h ha rfl
          · rw [List.getElem?_set_ne (show i ≠ j' from fun hh => hjj hh.symm)] at hj'
            exact hone i' j' a b hij hi' hj' ha hb
      · have hc := countP_set_add past ts i (.readv v) .wrote h
        simp [past] at hc
        have hv := hread i v h
        dsimp only at hsum hv ⊢
        omega
      · intro i' v' hi'
        by_cases hii : i' = i
        · subst hii
          rw [List.getElem?_set_eq_of_lt _ hbound] at hi'
          cases hi'
        · rw [List.getElem?_set_ne (show i ≠ i' from fun hh => hii hh.symm)] at hi'
          exact (hone i' i (.readv v') (.readv v) hii hi' h rfl rfl).elim
  | releaseStep ts s i h =>
      have hbound : i < ts.length := (List.getElem?_eq_some.mp h).1
      refine ⟨by simpa using hlen, ?_, ?_, ?_⟩
      · intro i' j' a b hij hi' hj' ha hb
        by_cases hii : i' = i
        · subst hii
          rw [List.getElem?_set_eq_of_lt _ hbound] at hi'
          obtain rfl : TState.donest = a := Option.some.inj hi'
          cases ha
        · rw [List.getElem?_set_ne (show i ≠ i' from fun hh => hii hh.symm)] at hi'
          by_cases hjj : j' = i
          · subst hjj
            rw [List.getElem?_set_eq_of_lt _ hbound] at hj'
            obtain rfl : TState.donest = b := Option.some.inj hj'
            cases hb
          · rw [List.getElem?_set_ne (show i ≠ j' from fun hh => hjj hh.symm)] at hj'
            exact hone i' j' a b hij hi' hj' ha hb
      · have hc := countP_set_add past ts i .wrote .donest h
        simp [past] at hc
        dsimp only at hsum ⊢
        omega
      · intro i' v hi'
        by_cases hii : i' = i
        · subst hii
          rw [List.getElem?_set_eq_of_lt _ hbound] at hi'
          cases hi'
        · rw [List.getElem?_set_ne (show i ≠ i' from fun hh => hii hh.symm)] at hi'
          exact hread i' v hi'

/-- The invariant holds in every configuration reachable from `n` idle
`update` calls over a counter with initial value `c0`. -/
theorem inv_reachable (n c0 : Nat) (cfg : List TState × Nat)
    (h : Relation.ReflTransGen UStep (List.replicate n .idle, c0) cfg) :
    Inv n c0 cfg := by
  induction h with
  | refl => exact inv_init n c0
  | tail _ hbc ih => exact inv_step ih hbc

end UpdateLock

/-- C1 — per-key serialization of `update`: for any number `n` of
concurrent `update` calls on the same key, each incrementing the stored
counter (initially `c0`) under the per-key `asyncio.Lock`, every complete
interleaved execution (any reachable configuration in which all calls have
finished) leaves the counter at exactly `c0 + n`: no update is lost. -/
theorem c1_per_key_serialization (n c0 : Nat) (ts : List UpdateLock.TState)
    (s : Nat)
    (hrun : Relation.ReflTransGen UpdateLock.UStep
      (List.replicate n .idle, c0) (ts, s))
    (hdone : ∀ t ∈ ts, t = .donest) :
    s = c0 + n := by
  obtain ⟨hlen, -, hsum, -⟩ := UpdateLock.inv_reachable n c0 (ts, s) hrun
  dsimp only at hlen hsum
  have hall : ts.countP UpdateLock.past = ts.length :=
    List.countP_eq_length.mpr (fun t ht => by rw [hdone t ht]; rfl)
  omega

/-- C1 witness: an explicit complete interleaving of two `update` calls
starting from counter 0 — acquire/read/write/release by the first task,
then by the second — ends with the counter at 2. -/
theorem c1_per_key_serialization_witness : (2 : Nat) = 0 + 2 := by
  have h1 : UpdateLock.UStep ([.idle, .idle], 0) ([.acquired, .idle], 0) :=
    UpdateLock.UStep.acquire [.idle, .idle] 0 0 rfl (by decide)
  have h2 : UpdateLock.UStep ([.acquired, .idle], 0) ([.readv 0, .idle], 0) :=
    UpdateLock.UStep.readStep [.acquired, .idle] 0 0 rfl
  have h3 : UpdateLock.UStep ([.readv 0, .idle], 0) ([.wrote, .idle], 1) :=
    UpdateLock.UStep.writeStep [.readv 0, .idle] 0 0 0 rfl
  have h4 : UpdateLock.UStep ([.wrote, .idle], 1) ([.donest, .idle], 1) :=
    UpdateLock.UStep.releaseStep [.wrote, .idle] 1 0 rfl
  have h5 : UpdateLock.UStep ([.donest, .idle], 1) ([.donest, .acquired], 1) :=
    UpdateLock.UStep.acquire [.donest, .idle] 1 1 rfl (by decide)
  have h6 : UpdateLock.UStep ([.donest, .acquired], 1) ([.donest, .readv 1], 1) :=
    UpdateLock.UStep.readStep [.donest, .acquired] 1 1 rfl
  have h7 : UpdateLock.UStep ([.donest, .readv 1], 1) ([.donest, .wrote], 2) :=
    UpdateLock.UStep.writeStep [.donest, .readv 1] 1 1 1 rfl
  have h8 : UpdateLock.UStep ([.donest, .wrote], 2) ([.donest, .donest], 2) :=
    UpdateLock.UStep.releaseStep [.donest, .wrote] 2 1 rfl
  exact c1_per_key_serialization 2 0 [.donest, .donest] 2
    (.head h1 (.head h2 (.head h3 (.head h4 (.head h5 (.head h6
      (.head h7 (.head h8 .refl)))))))) (by decide)
